import Mathlib

/-!
Verification of the greenlight movie record store
(`internal/data/movies.go` and its collaborators).

The Go code is shallowly embedded: the database is a list of `Movie`
rows, each SQL statement of `movies.go` becomes a pure function on that
list, and the error-classification code around each `Scan`/`Exec` call
becomes a function from a backend outcome to the Go function's result.
Machine integers (`int64` ids, `int32` years/runtimes/versions) are
modelled as `Int`; no operation here can overflow them (versions grow by
one per update, the other fields are only compared).

Parts of the repository that `movies.go` uses but that are not present
in the source tree (the `validator` package, the `Filters` struct with
its `sortColumn`/`sortDirection` helpers, and the table schema giving
`version` its default of 1) are modelled from the spec; each such
definition carries a doc comment saying so.
-/

/-- The Go `error` values that flow through `movies.go`: the two package
sentinels `ErrRecordNotFound` and `ErrEditConflict`, the driver sentinel
`sql.ErrNoRows`, a context deadline expiry, and any other backend error
(indexed by an opaque code). -/
inductive GoError where
  | errRecordNotFound
  | errEditConflict
  | sqlErrNoRows
  | deadlineExceeded
  | otherError (code : Nat)
deriving DecidableEq, Repr

/-- The `Movie` struct of `movies.go`.  `createdAt` stands for the
`time.Time` stamp; `genres` is `Option` because a Go slice can be `nil`
and `ValidateMovie` distinguishes `nil` from empty.  `runtime` is the
`Runtime` type (an `int32` minute count). -/
structure Movie where
  id : Int
  createdAt : Nat
  title : String
  year : Int
  runtime : Int
  genres : Option (List String)
  version : Int
deriving DecidableEq, Repr

/-- `movie.Genres` as read by `len` / indexing in Go: a `nil` slice
behaves as the empty list. -/
def genresList (m : Movie) : List String := m.genres.getD []

/-- Outcome of a backend call (`QueryRowContext(...).Scan(...)` or
`ExecContext`): a result, or a Go error — an empty single-row result
surfaces as `err sqlErrNoRows`, exactly as `database/sql` reports it. -/
inductive DBOutcome (α : Type) where
  | ok (a : α)
  | err (e : GoError)
deriving DecidableEq, Repr

/-- Modelled from the spec: the `validator` package is not under `src/`.
`Validator` accumulates field-level failures as an ordered association
list of `(key, message)` pairs. -/
structure Validator where
  errors : List (String × String)
deriving DecidableEq, Repr

/-- Whether a message is already recorded under `key`. -/
def Validator.hasKey (v : Validator) (key : String) : Bool :=
  v.errors.any (fun p => p.1 == key)

/-- Modelled from the spec: `Check(ok, key, message)` records `message`
under `key` when `ok` is false, only if `key` has no prior message
(first failure per field wins). -/
def Validator.check (v : Validator) (ok : Bool) (key message : String) : Validator :=
  if ok then v
  else if v.hasKey key then v
  else ⟨v.errors ++ [(key, message)]⟩

/-- Modelled from the spec: `Valid()` is true iff no failures were
recorded. -/
def Validator.valid (v : Validator) : Bool := v.errors.isEmpty

/-- Modelled from the spec: `validator.Unique` is true iff all elements
of the sequence are pairwise distinct. -/
def uniqueStrings : List String → Bool
  | [] => true
  | x :: rest => !rest.contains x && uniqueStrings rest

/-- Runs a sequence of `Validator.check` calls in order: each entry is
`(ok, key, message)`. -/
def runChecks (v : Validator) : List (Bool × String × String) → Validator
  | [] => v
  | (ok, key, msg) :: rest => runChecks (v.check ok key msg) rest

/-- The eleven checks of `ValidateMovie` in `movies.go`, in source
order, with the source's exact condition and message for each field. -/
def movieChecks (currentYear : Int) (movie : Movie) : List (Bool × String × String) :=
  [ (movie.title != "", "title", "must be provided"),
    (decide (movie.title.utf8ByteSize ≤ 500), "title", "must not be more than 500 bytes long"),
    (movie.year != 0, "year", "must be provided"),
    (decide (1888 ≤ movie.year), "year", "must be greator than 1888"),
    (decide (movie.year ≤ currentYear), "year", "must not be in the future"),
    (movie.runtime != 0, "runtime", "must be provided"),
    (decide (0 < movie.runtime), "runtime", "must be a positive integers"),
    (movie.genres.isSome, "genres", "must be provided"),
    (decide (1 ≤ (genresList movie).length), "genres", "must contain at least 1 genre"),
    (decide ((genresList movie).length ≤ 5), "genres", "must not contain more than 5 genres"),
    (uniqueStrings (genresList movie), "genres", "must not contain duplicate values") ]

/-- `ValidateMovie` from `movies.go`: the eleven `v.Check` calls run in
order on the validator.  `currentYear` stands for `time.Now().Year()`,
evaluated at validation time. -/
def ValidateMovie (currentYear : Int) (v : Validator) (movie : Movie) : Validator :=
  runChecks v (movieChecks currentYear movie)

/-- Database state backing the `movies` table: the stored rows, the
next value of the id sequence, and the clock used for `created_at`. -/
structure DBState where
  rows : List Movie
  nextId : Int
  now : Nat
deriving DecidableEq, Repr

/-- The row created by the `INSERT INTO movies ... RETURNING id,
created_at, version` statement.  The id comes from the table's
sequence and `created_at` from the clock; the `version` default of 1 is
modelled from the spec (the table schema is not under `src/`; the
`Movie.Version` field comment in `movies.go` documents the start at 1). -/
def insertRow (db : DBState) (movie : Movie) : Movie :=
  { id := db.nextId, createdAt := db.now, title := movie.title,
    year := movie.year, runtime := movie.runtime, genres := movie.genres,
    version := 1 }

/-- `MovieModel.Insert` under a healthy backend: appends the new row and
scans `id, created_at, version` back into the caller's movie. -/
def MovieModel.Insert (db : DBState) (movie : Movie) : DBState × Movie :=
  ({ db with rows := db.rows ++ [insertRow db movie], nextId := db.nextId + 1 },
   { movie with id := (insertRow db movie).id,
                createdAt := (insertRow db movie).createdAt,
                version := (insertRow db movie).version })

/-- The `Scan` step of `Insert`: `movies.go` returns the scan error
as-is (no classification), and on success writes the returned
`(id, created_at, version)` triple into the caller's movie. -/
def insertScan (movie : Movie) (o : DBOutcome (Int × Nat × Int)) : Movie × Option GoError :=
  match o with
  | .ok (i, c, ver) => ({ movie with id := i, createdAt := c, version := ver }, none)
  | .err e => (movie, some e)

/-- The single-row `SELECT ... WHERE id = $1` of `Get` under a healthy
backend: the first stored row with the requested id, else no rows. -/
def queryGet (rows : List Movie) (id : Int) : DBOutcome Movie :=
  match rows.find? (fun r => r.id == id) with
  | some r => .ok r
  | none => .err .sqlErrNoRows

/-- `MovieModel.Get` after the id guard, as a function of the backend
outcome: `id < 1` returns `ErrRecordNotFound` before any query (the
`Bool` records whether the backend was reached); otherwise an error
satisfying `errors.Is(err, sql.ErrNoRows)` maps to `ErrRecordNotFound`,
any other error is surfaced as-is, and a scanned row is returned
whole. -/
def getScan (id : Int) (o : DBOutcome Movie) : Except GoError Movie × Bool :=
  if id < 1 then (.error .errRecordNotFound, false)
  else
    match o with
    | .ok m => (.ok m, true)
    | .err e =>
      if e = .sqlErrNoRows then (.error .errRecordNotFound, true)
      else (.error e, true)

/-- `MovieModel.Get` under a healthy backend. -/
def MovieModel.Get (rows : List Movie) (id : Int) : Except GoError Movie × Bool :=
  getScan id (queryGet rows id)

/-- Effect of the conditional `UPDATE ... SET title = $1, year = $2,
runtime = $3, genres = $4, version = version + 1 WHERE id = $5 AND
version = $6` statement on one stored row. -/
def sqlUpdateRow (movie : Movie) (r : Movie) : Movie :=
  if r.id == movie.id && r.version == movie.version then
    { r with title := movie.title, year := movie.year,
             runtime := movie.runtime, genres := movie.genres,
             version := r.version + 1 }
  else r

/-- The conditional update under a healthy backend: if some row matches
`(id, version)` the table is rewritten and `RETURNING version` yields
the incremented version; otherwise the statement matches nothing and the
scan sees `sql.ErrNoRows`. -/
def queryUpdate (rows : List Movie) (movie : Movie) : List Movie × DBOutcome Int :=
  match rows.find? (fun r => r.id == movie.id && r.version == movie.version) with
  | some r => (rows.map (sqlUpdateRow movie), .ok (r.version + 1))
  | none => (rows, .err .sqlErrNoRows)

/-- The `Scan(&movie.Version)` step of `Update`: on success only the
caller's `Version` field is overwritten with the returned value; an
error satisfying `errors.Is(err, sql.ErrNoRows)` maps to
`ErrEditConflict`; any other error is surfaced as-is and the caller's
movie is untouched. -/
def updateScan (movie : Movie) (o : DBOutcome Int) : Movie × Option GoError :=
  match o with
  | .ok v => ({ movie with version := v }, none)
  | .err e =>
    if e = .sqlErrNoRows then (movie, some .errEditConflict)
    else (movie, some e)

/-- `MovieModel.Update` under a healthy backend: returns the new table,
the caller's movie after the scan, and the error, if any. -/
def MovieModel.Update (rows : List Movie) (movie : Movie) :
    List Movie × Movie × Option GoError :=
  ((queryUpdate rows movie).1,
   (updateScan movie (queryUpdate rows movie).2).1,
   (updateScan movie (queryUpdate rows movie).2).2)

/-- The `DELETE FROM movies WHERE id = $1` statement under a healthy
backend: the remaining rows and the affected-row count. -/
def queryDelete (rows : List Movie) (id : Int) : List Movie × Nat :=
  (rows.filter (fun r => !(r.id == id)), rows.countP (fun r => r.id == id))

/-- `MovieModel.Delete` after the id guard, as a function of the `Exec`
outcome (`Except.ok` carries the affected-row count): `id < 1` returns
`ErrRecordNotFound` before any call (the `Bool` records whether the
backend was reached); an `Exec` error is returned as-is; zero affected
rows map to `ErrRecordNotFound`; otherwise success. -/
def deleteScan (id : Int) (o : Except GoError Nat) : Option GoError × Bool :=
  if id < 1 then (some .errRecordNotFound, false)
  else
    match o with
    | .error e => (some e, true)
    | .ok affected => (if affected == 0 then some .errRecordNotFound else none, true)

/-- `MovieModel.Delete` under a healthy backend. -/
def MovieModel.Delete (rows : List Movie) (id : Int) : List Movie × Option GoError :=
  if id < 1 then (rows, some .errRecordNotFound)
  else
    ((queryDelete rows id).1,
     (deleteScan id (.ok (queryDelete rows id).2)).1)

/-- Tokenisation of the Postgres `simple` text-search configuration used
by `to_tsvector('simple', ·)` / `plainto_tsquery('simple', ·)`: maximal
runs of alphanumeric characters, lower-cased.  `cur` accumulates the
current token reversed. -/
def tokenizeAux : List Char → List Char → List (List Char)
  | [], cur => if cur.isEmpty then [] else [cur.reverse]
  | c :: rest, cur =>
    if c.isAlphanum then tokenizeAux rest (c.toLower :: cur)
    else if cur.isEmpty then tokenizeAux rest []
    else cur.reverse :: tokenizeAux rest []

/-- Tokens of a string under the `simple` configuration. -/
def tokenize (s : String) : List (List Char) := tokenizeAux s.data []

/-- The title predicate of `GetAll`:
`(to_tsvector('simple', title) @@ plainto_tsquery('simple', $1) OR $1 = '')`.
The text-search match holds when every token of the phrase occurs among
the title's tokens. -/
def titleMatches (phrase title : String) : Bool :=
  (tokenize phrase).all (fun t => (tokenize title).contains t) || phrase == ""

/-- The genre predicate of `GetAll`: `(genres @> $2 OR $2 = '{}')` —
array containment: every requested genre occurs in the stored list. -/
def genreMatches (req : List String) (stored : List String) : Bool :=
  req.all (fun g => stored.contains g) || req.isEmpty

/-- The full `WHERE` clause of `GetAll` applied to one stored row. -/
def rowMatches (title : String) (genres : List String) (r : Movie) : Bool :=
  titleMatches title r.title && genreMatches genres (genresList r)

/-- Whether a string begins with the descending-order marker. -/
def startsWithDash (s : String) : Bool :=
  match s.data with
  | c :: _ => c == '-'
  | [] => false

/-- A sort value with its leading descending-order marker removed. -/
def stripLeadingDash (s : String) : String :=
  if startsWithDash s then String.mk s.data.tail else s

/-- Modelled from the spec: the `Filters` struct is not under `src/`.
It carries the caller's pagination and sort parameters together with
the fixed, deployment-chosen sort safelist. -/
structure Filters where
  page : Int
  pageSize : Int
  sort : String
  sortSafelist : List String
deriving DecidableEq, Repr

/-- Modelled from the spec: `sortColumn` (not under `src/`) resolves the
client sort value against the safelist before any query text exists —
a safelisted value yields its column name with any `-` prefix stripped,
anything else is rejected. -/
def Filters.sortColumn (f : Filters) : Option String :=
  if f.sortSafelist.contains f.sort then some (stripLeadingDash f.sort) else none

/-- Modelled from the spec: `sortDirection` (not under `src/`) is
`DESC` for a `-`-prefixed sort value and `ASC` otherwise. -/
def Filters.sortDirection (f : Filters) : String :=
  if startsWithDash f.sort then "DESC" else "ASC"

/-- The dynamically assembled fragment of the `GetAll` query text
(`fmt.Sprintf` of `ORDER BY %s %s, id ASC`): it exists only once the
sort value has resolved against the safelist. -/
def buildOrderByClause (f : Filters) : Option String :=
  match f.sortColumn with
  | none => none
  | some col => some ("ORDER BY " ++ col ++ " " ++ f.sortDirection ++ ", id ASC")

/-- The `ORDER BY <key> <dir>, id ASC` ordering for one sort key:
strictly smaller key first (reversed when descending), equal keys
ordered by ascending id. -/
def keyOrder {K : Type} [LinearOrder K] (key : Movie → K) (desc : Bool)
    (a b : Movie) : Bool :=
  decide (key (cond desc b a) < key (cond desc a b)) ||
    (decide (key a = key b) && decide (a.id ≤ b.id))

/-- The row ordering named by a resolved sort column. -/
def listOrder (col : String) (desc : Bool) (a b : Movie) : Bool :=
  if col == "title" then keyOrder (fun m => m.title) desc a b
  else if col == "year" then keyOrder (fun m => m.year) desc a b
  else if col == "runtime" then keyOrder (fun m => m.runtime) desc a b
  else keyOrder (fun m => m.id) desc a b

/-- Insertion into a list sorted by `le`. -/
def insertOrdered {α : Type} (le : α → α → Bool) (x : α) : List α → List α
  | [] => [x]
  | y :: ys => if le x y then x :: y :: ys else y :: insertOrdered le x ys

/-- Sorting by `le` (the `ORDER BY` of the backend). -/
def orderBy {α : Type} (le : α → α → Bool) : List α → List α
  | [] => []
  | x :: xs => insertOrdered le x (orderBy le xs)

/-- `MovieModel.GetAll` under a healthy backend: the stored rows passing
the `WHERE` clause, in `ORDER BY` order.  The query exists only when the
sort value resolves against the safelist (`none` otherwise); the query
applies no `LIMIT`/`OFFSET` and computes no total count. -/
def MovieModel.GetAll (rows : List Movie) (title : String)
    (genres : List String) (f : Filters) : Option (List Movie) :=
  match f.sortColumn with
  | none => none
  | some col =>
    some (orderBy (listOrder col (f.sortDirection == "DESC"))
      (rows.filter (rowMatches title genres)))

/-- The error path of `GetAll`: a `QueryContext` error is returned
as-is, with no rows. -/
def getAllScan (o : Except GoError (List Movie)) : Except GoError (List Movie) :=
  match o with
  | .error e => .error e
  | .ok ms => .ok ms

/-- The `context.WithTimeout(context.Background(), 3*time.Second)`
deadline of `Insert`. -/
def insertTimeoutSeconds : Nat := 3

/-- The 3-second deadline of `Get`. -/
def getTimeoutSeconds : Nat := 3

/-- The 3-second deadline of `Update`. -/
def updateTimeoutSeconds : Nat := 3

/-- The 3-second deadline of `Delete`. -/
def deleteTimeoutSeconds : Nat := 3

/-- The 3-second deadline of `GetAll`. -/
def getAllTimeoutSeconds : Nat := 3

/-- Whether `pat` occurs at the head of `l`. -/
def startsWithSeq {α : Type} [BEq α] : List α → List α → Bool
  | _, [] => true
  | [], _ :: _ => false
  | a :: as, b :: bs => a == b && startsWithSeq as bs

/-- Whether `pat` occurs as a contiguous run inside `l` (naive exact
substring search, used to separate text search from substring match). -/
def containsSeq {α : Type} [BEq α] : List α → List α → Bool
  | [], pat => pat.isEmpty
  | a :: rest, pat => startsWithSeq (a :: rest) pat || containsSeq rest pat

/-- Number of messages recorded under one key. -/
def countKey (key : String) (l : List (String × String)) : Nat :=
  l.countP (fun p => p.1 == key)

theorem hasKey_false_iff (v : Validator) (key : String) :
    v.hasKey key = false ↔ countKey key v.errors = 0 := by
  unfold Validator.hasKey countKey
  rw [List.countP_eq_zero]
  simp [List.any_eq_true]

theorem hasKey_check_mono (v : Validator) (ok : Bool) (k m k2 : String)
    (h : v.hasKey k2 = true) : (v.check ok k m).hasKey k2 = true := by
  unfold Validator.check
  split
  · exact h
  · split
    · exact h
    · unfold Validator.hasKey at h ⊢
      simp only [List.any_append, List.any_cons, List.any_nil,
        Bool.or_eq_true] at *
      exact Or.inl h

theorem hasKey_runChecks_mono (cs : List (Bool × String × String)) :
    ∀ v : Validator, ∀ k, v.hasKey k = true → (runChecks v cs).hasKey k = true := by
  induction cs with
  | nil => intro v k h; exact h
  | cons c rest ih =>
    intro v k h
    exact ih (v.check c.1 c.2.1 c.2.2) k (hasKey_check_mono v c.1 c.2.1 c.2.2 k h)

theorem hasKey_check_self (v : Validator) (k m : String) :
    (v.check false k m).hasKey k = true := by
  unfold Validator.check
  simp only [Bool.false_eq_true, if_false]
  split
  · assumption
  · unfold Validator.hasKey
    simp [List.any_append]

/-- A failed check leaves its key recorded at the end of the run. -/
theorem runChecks_hasKey_of_failed (cs : List (Bool × String × String)) :
    ∀ v : Validator, ∀ k m, (false, k, m) ∈ cs → (runChecks v cs).hasKey k = true := by
  induction cs with
  | nil => intro v k m h; cases h
  | cons c rest ih =>
    intro v k m h
    rcases List.mem_cons.mp h with hc | hrest
    · subst hc
      exact hasKey_runChecks_mono rest _ k (hasKey_check_self v k m)
    · exact ih _ k m hrest

theorem check_errors_nil_iff (v : Validator) (ok : Bool) (k m : String) :
    (v.check ok k m).errors = [] ↔ v.errors = [] ∧ ok = true := by
  unfold Validator.check
  cases ok with
  | true => simp
  | false =>
    simp only [Bool.false_eq_true, if_false]
    split
    · rename_i hk
      constructor
      · intro h
        exfalso
        unfold Validator.hasKey at hk
        rw [h] at hk
        simp [List.any_nil] at hk
      · rintro ⟨-, h⟩; cases h
    · simp

/-- The validator ends clean iff it started clean and every check
passed: no check is short-circuited past. -/
theorem runChecks_errors_nil_iff (cs : List (Bool × String × String)) :
    ∀ v : Validator,
      (runChecks v cs).errors = [] ↔ v.errors = [] ∧ ∀ c ∈ cs, c.1 = true := by
  induction cs with
  | nil => intro v; simp [runChecks]
  | cons c rest ih =>
    intro v
    rw [runChecks, ih, check_errors_nil_iff]
    constructor
    · rintro ⟨⟨h1, h2⟩, h3⟩
      refine ⟨h1, ?_⟩
      intro d hd
      rcases List.mem_cons.mp hd with hdc | hdr
      · subst hdc; exact h2
      · exact h3 d hdr
    · rintro ⟨h1, h2⟩
      exact ⟨⟨h1, h2 c (List.mem_cons_self c rest)⟩, fun d hd => h2 d (List.mem_cons_of_mem c hd)⟩

theorem countKey_check_le_one (v : Validator) (ok : Bool) (k m key : String)
    (h : countKey key v.errors ≤ 1) : countKey key (v.check ok k m).errors ≤ 1 := by
  unfold Validator.check
  split
  · exact h
  · split
    · exact h
    · rename_i hok hk
      unfold countKey at h ⊢
      rw [List.countP_append]
      by_cases hkk : k = key
      · subst hkk
        have h0 : countKey k v.errors = 0 :=
          (hasKey_false_iff v k).mp (Bool.not_eq_true _ ▸ Bool.of_not_eq_true hk)
        unfold countKey at h0
        rw [h0]
        simp [List.countP_cons]
      · have : (fun p : String × String => p.1 == key) (k, m) = false := by
          simp [hkk]
        simp [List.countP_cons, this]
        exact h

/-- At most one message is ever recorded per field. -/
theorem countKey_runChecks_le_one (cs : List (Bool × String × String)) :
    ∀ v : Validator, ∀ key, countKey key v.errors ≤ 1 →
      countKey key (runChecks v cs).errors ≤ 1 := by
  induction cs with
  | nil => intro v key h; exact h
  | cons c rest ih =>
    intro v key h
    exact ih _ key (countKey_check_le_one v c.1 c.2.1 c.2.2 key h)

theorem perm_insertOrdered {α : Type} (le : α → α → Bool) (x : α) (l : List α) :
    (insertOrdered le x l).Perm (x :: l) := by
  induction l with
  | nil => simp [insertOrdered]
  | cons y ys ih =>
    rw [insertOrdered]
    split
    · exact List.Perm.refl _
    · exact (ih.cons y).trans (List.Perm.swap x y ys)

theorem mem_insertOrdered {α : Type} (le : α → α → Bool) (x : α) (l : List α)
    (z : α) (h : z ∈ insertOrdered le x l) : z = x ∨ z ∈ l :=
  List.mem_cons.mp ((perm_insertOrdered le x l).mem_iff.mp h)

theorem pairwise_insertOrdered {α : Type} (le : α → α → Bool)
    (htot : ∀ a b, le a b = true ∨ le b a = true)
    (htrans : ∀ a b c, le a b = true → le b c = true → le a c = true)
    (x : α) (l : List α) (h : l.Pairwise (fun a b => le a b = true)) :
    (insertOrdered le x l).Pairwise (fun a b => le a b = true) := by
  induction l with
  | nil => simp [insertOrdered]
  | cons y ys ih =>
    rw [insertOrdered]
    rcases List.pairwise_cons.mp h with ⟨hy, hys⟩
    split
    · rename_i hxy
      refine List.pairwise_cons.mpr ⟨?_, h⟩
      intro z hz
      rcases List.mem_cons.mp hz with rfl | hzys
      · exact hxy
      · exact htrans x y z hxy (hy z hzys)
    · rename_i hxy
      have hyx : le y x = true := by
        rcases htot x y with h1 | h1
        · exact absurd h1 hxy
        · exact h1
      refine List.pairwise_cons.mpr ⟨?_, ih hys⟩
      intro z hz
      rcases mem_insertOrdered le x ys z hz with rfl | hzys
      · exact hyx
      · exact hy z hzys

theorem perm_orderBy {α : Type} (le : α → α → Bool) (l : List α) :
    (orderBy le l).Perm l := by
  induction l with
  | nil => simp [orderBy]
  | cons x xs ih =>
    rw [orderBy]
    exact (perm_insertOrdered le x (orderBy le xs)).trans (ih.cons x)

theorem pairwise_orderBy {α : Type} (le : α → α → Bool)
    (htot : ∀ a b, le a b = true ∨ le b a = true)
    (htrans : ∀ a b c, le a b = true → le b c = true → le a c = true)
    (l : List α) : (orderBy le l).Pairwise (fun a b => le a b = true) := by
  induction l with
  | nil => simp [orderBy]
  | cons x xs ih =>
    rw [orderBy]
    exact pairwise_insertOrdered le htot htrans x (orderBy le xs) ih

theorem keyOrder_total {K : Type} [LinearOrder K] (key : Movie → K)
    (desc : Bool) (a b : Movie) :
    keyOrder key desc a b = true ∨ keyOrder key desc b a = true := by
  unfold keyOrder
  cases desc <;>
    simp only [cond, Bool.or_eq_true, Bool.and_eq_true, decide_eq_true_eq] <;>
    rcases lt_trichotomy (key a) (key b) with h | h | h
  · exact Or.inl (Or.inl h)
  · rcases Int.le_total a.id b.id with hi | hi
    · exact Or.inl (Or.inr ⟨h, hi⟩)
    · exact Or.inr (Or.inr ⟨h.symm, hi⟩)
  · exact Or.inr (Or.inl h)
  · exact Or.inr (Or.inl h)
  · rcases Int.le_total a.id b.id with hi | hi
    · exact Or.inl (Or.inr ⟨h, hi⟩)
    · exact Or.inr (Or.inr ⟨h.symm, hi⟩)
  · exact Or.inl (Or.inl h)

theorem keyOrder_trans {K : Type} [LinearOrder K] (key : Movie → K)
    (desc : Bool) (a b c : Movie) (hab : keyOrder key desc a b = true)
    (hbc : keyOrder key desc b c = true) : keyOrder key desc a c = true := by
  unfold keyOrder at hab hbc ⊢
  cases desc <;>
    simp only [cond, Bool.or_eq_true, Bool.and_eq_true, decide_eq_true_eq] at hab hbc ⊢
  · rcases hab with h1 | ⟨h1e, h1i⟩ <;> rcases hbc with h2 | ⟨h2e, h2i⟩
    · exact Or.inl (lt_trans h1 h2)
    · exact Or.inl (h2e ▸ h1)
    · exact Or.inl (h1e ▸ h2)
    · exact Or.inr ⟨h1e.trans h2e, le_trans h1i h2i⟩
  · rcases hab with h1 | ⟨h1e, h1i⟩ <;> rcases hbc with h2 | ⟨h2e, h2i⟩
    · exact Or.inl (lt_trans h2 h1)
    · exact Or.inl (h2e ▸ h1)
    · exact Or.inl (h1e ▸ h2)
    · exact Or.inr ⟨h1e.trans h2e, le_trans h1i h2i⟩

theorem listOrder_total (col : String) (desc : Bool) (a b : Movie) :
    listOrder col desc a b = true ∨ listOrder col desc b a = true := by
  unfold listOrder
  split_ifs <;> exact keyOrder_total _ _ _ _

theorem listOrder_trans (col : String) (desc : Bool) (a b c : Movie)
    (hab : listOrder col desc a b = true) (hbc : listOrder col desc b c = true) :
    listOrder col desc a c = true := by
  unfold listOrder at hab hbc ⊢
  split_ifs at hab hbc ⊢ <;> exact keyOrder_trans _ _ _ _ _ hab hbc

/-- Whether two rows agree on the sort key named by `col`. -/
def sameKey (col : String) (a b : Movie) : Bool :=
  if col == "title" then a.title == b.title
  else if col == "year" then a.year == b.year
  else if col == "runtime" then a.runtime == b.runtime
  else a.id == b.id

theorem keyOrder_tie {K : Type} [LinearOrder K] (key : Movie → K)
    (desc : Bool) (a b : Movie) (h : key a = key b) :
    (keyOrder key desc a b = true ↔ a.id ≤ b.id) := by
  unfold keyOrder
  cases desc <;> simp [cond, h, lt_irrefl]

theorem listOrder_tie (col : String) (desc : Bool) (a b : Movie)
    (h : sameKey col a b = true) :
    (listOrder col desc a b = true ↔ a.id ≤ b.id) := by
  unfold sameKey at h
  unfold listOrder
  split_ifs at h ⊢ <;> exact keyOrder_tie _ desc a b (by simpa using h)

/-- After the conditional write for `m`, no row can still carry `m`'s
observed `(id, version)` pair: a matched row was bumped past it, an
unmatched row never carried it. -/
theorem sqlUpdateRow_version_ne (m r : Movie) (hid : (sqlUpdateRow m r).id = m.id) :
    (sqlUpdateRow m r).version ≠ m.version := by
  unfold sqlUpdateRow at hid ⊢
  by_cases hmatch : (r.id == m.id && r.version == m.version) = true
  · rw [if_pos hmatch] at hid ⊢
    show r.version + 1 ≠ m.version
    simp only [Bool.and_eq_true, beq_iff_eq] at hmatch
    omega
  · rw [if_neg hmatch] at hid ⊢
    simp only [Bool.and_eq_true, beq_iff_eq] at hmatch
    intro hv
    exact hmatch ⟨hid, hv⟩

/-- C1: `Update` executes a single conditional write matching only the
row whose id and stored version equal the caller's movie, incrementing
the version.  When no row matches, it fails with `ErrEditConflict` and
both the table and the caller's movie are unchanged; when a row matches,
it succeeds and the new version (observed version plus one) is written
back into the caller's movie; and a second update starting from the same
observed version can never also succeed. -/
theorem C1_update_optimistic_lock (rows : List Movie) (m : Movie) :
    ((∀ r ∈ rows, ¬(r.id = m.id ∧ r.version = m.version)) →
      MovieModel.Update rows m = (rows, m, some GoError.errEditConflict)) ∧
    ((∃ r ∈ rows, r.id = m.id ∧ r.version = m.version) →
      (MovieModel.Update rows m).2.2 = none ∧
      (MovieModel.Update rows m).2.1.version = m.version + 1) ∧
    (∀ m2 : Movie, m2.id = m.id → m2.version = m.version →
      (MovieModel.Update rows m).2.2 = none →
      (MovieModel.Update (MovieModel.Update rows m).1 m2).2.2 =
        some GoError.errEditConflict) := by
  refine ⟨?_, ?_, ?_⟩
  · intro h
    have hfind : rows.find? (fun r => r.id == m.id && r.version == m.version) = none := by
      rw [List.find?_eq_none]
      intro x hx
      simpa only [Bool.and_eq_true, beq_iff_eq] using h x hx
    simp [MovieModel.Update, queryUpdate, hfind, updateScan]
  · rintro ⟨r, hr, hid, hver⟩
    have hsome : (rows.find? (fun r => r.id == m.id && r.version == m.version)).isSome := by
      rw [List.find?_isSome]
      exact ⟨r, hr, by simp [hid, hver]⟩
    cases hf : rows.find? (fun r => r.id == m.id && r.version == m.version) with
    | none => rw [hf] at hsome; simp at hsome
    | some r0 =>
      have hp := List.find?_some hf
      simp only [Bool.and_eq_true, beq_iff_eq] at hp
      refine ⟨?_, ?_⟩
      · simp [MovieModel.Update, queryUpdate, hf, updateScan]
      · simp [MovieModel.Update, queryUpdate, hf, updateScan, hp.2]
  · intro m2 hid2 hver2 hsucc
    cases hf : rows.find? (fun r => r.id == m.id && r.version == m.version) with
    | none =>
      exfalso
      simp [MovieModel.Update, queryUpdate, hf, updateScan] at hsucc
    | some r0 =>
      have hrows1 : (MovieModel.Update rows m).1 = rows.map (sqlUpdateRow m) := by
        simp [MovieModel.Update, queryUpdate, hf]
      rw [hrows1]
      have hnone : (rows.map (sqlUpdateRow m)).find?
          (fun r => r.id == m2.id && r.version == m2.version) = none := by
        rw [List.find?_eq_none]
        intro x hx
        rcases List.mem_map.mp hx with ⟨r, hr, rfl⟩
        simp only [hid2, hver2, Bool.and_eq_true, beq_iff_eq, not_and]
        exact sqlUpdateRow_version_ne m r
      simp [MovieModel.Update, queryUpdate, hnone, updateScan]

/-- Witness for C1: on a one-row table at version 1, an update from
version 1 succeeds and writes back version 2; on an empty table the same
update fails with `ErrEditConflict` leaving everything unchanged; and a
second update from the already-consumed version 1 fails with
`ErrEditConflict`. -/
theorem C1_update_optimistic_lock_witness :
    (MovieModel.Update
        [Movie.mk 1 0 "Old" 2000 100 (some ["drama"]) 1]
        (Movie.mk 1 0 "New" 2001 120 (some ["drama"]) 1)).2.2 = none ∧
    (MovieModel.Update
        [Movie.mk 1 0 "Old" 2000 100 (some ["drama"]) 1]
        (Movie.mk 1 0 "New" 2001 120 (some ["drama"]) 1)).2.1.version = 1 + 1 ∧
    MovieModel.Update [] (Movie.mk 1 0 "New" 2001 120 (some ["drama"]) 1) =
      ([], Movie.mk 1 0 "New" 2001 120 (some ["drama"]) 1,
        some GoError.errEditConflict) ∧
    (MovieModel.Update
       (MovieModel.Update
          [Movie.mk 1 0 "Old" 2000 100 (some ["drama"]) 1]
          (Movie.mk 1 0 "New" 2001 120 (some ["drama"]) 1)).1
       (Movie.mk 1 0 "Newer" 2002 130 (some ["drama"]) 1)).2.2 =
      some GoError.errEditConflict := by
  have h := C1_update_optimistic_lock
    [Movie.mk 1 0 "Old" 2000 100 (some ["drama"]) 1]
    (Movie.mk 1 0 "New" 2001 120 (some ["drama"]) 1)
  have h0 := C1_update_optimistic_lock []
    (Movie.mk 1 0 "New" 2001 120 (some ["drama"]) 1)
  have hex : ∃ r ∈ [Movie.mk 1 0 "Old" 2000 100 (some ["drama"]) 1],
      r.id = (Movie.mk 1 0 "New" 2001 120 (some ["drama"]) 1).id ∧
      r.version = (Movie.mk 1 0 "New" 2001 120 (some ["drama"]) 1).version := by
    decide
  refine ⟨(h.2.1 hex).1, (h.2.1 hex).2, h0.1 (by decide), ?_⟩
  exact h.2.2 (Movie.mk 1 0 "Newer" 2002 130 (some ["drama"]) 1) rfl rfl (h.2.1 hex).1

/-- C2: `version` is 1 immediately after a successful insert (both in
the stored row and in the value written back to the caller); a
successful update leaves every stored row either untouched or with its
version raised by exactly 1; a delete only removes rows.  No store
operation decrements a version or moves it by more than one. -/
theorem C2_version_invariant (db : DBState) (rows : List Movie) (m : Movie) (id : Int) :
    (MovieModel.Insert db m).2.version = 1 ∧
    (∀ r ∈ (MovieModel.Insert db m).1.rows, r ∈ db.rows ∨ r.version = 1) ∧
    (∀ r2 ∈ (MovieModel.Update rows m).1,
       r2 ∈ rows ∨ ∃ r ∈ rows, r2.id = r.id ∧ r2.version = r.version + 1) ∧
    (∀ r ∈ (MovieModel.Delete rows id).1, r ∈ rows) := by
  refine ⟨rfl, ?_, ?_, ?_⟩
  · intro r hr
    simp only [MovieModel.Insert] at hr
    rcases List.mem_append.mp hr with h | h
    · exact Or.inl h
    · have := List.mem_singleton.mp h
      subst this
      exact Or.inr rfl
  · intro r2 hr2
    cases hf : rows.find? (fun r => r.id == m.id && r.version == m.version) with
    | none =>
      simp only [MovieModel.Update, queryUpdate, hf] at hr2
      exact Or.inl hr2
    | some r0 =>
      simp only [MovieModel.Update, queryUpdate, hf] at hr2
      rcases List.mem_map.mp hr2 with ⟨r, hr, rfl⟩
      unfold sqlUpdateRow
      by_cases hmatch : (r.id == m.id && r.version == m.version) = true
      · rw [if_pos hmatch]
        exact Or.inr ⟨r, hr, rfl, rfl⟩
      · rw [if_neg hmatch]
        exact Or.inl hr
  · intro r hr
    unfold MovieModel.Delete at hr
    split at hr
    · exact hr
    · simp only [queryDelete] at hr
      exact List.mem_of_mem_filter hr

/-- Witness for C2: inserting into an empty store writes back version 1,
and the row updated from version 1 sits at exactly version 2. -/
theorem C2_version_invariant_witness :
    (MovieModel.Insert (DBState.mk [] 1 0)
      (Movie.mk 0 0 "B" 2001 120 (some ["drama"]) 0)).2.version = 1 ∧
    (Movie.mk 1 0 "B" 2001 120 (some ["drama"]) 2 ∈
        [Movie.mk 1 0 "A" 2000 100 (some ["drama"]) 1] ∨
      ∃ r ∈ [Movie.mk 1 0 "A" 2000 100 (some ["drama"]) 1],
        (Movie.mk 1 0 "B" 2001 120 (some ["drama"]) 2).id = r.id ∧
        (Movie.mk 1 0 "B" 2001 120 (some ["drama"]) 2).version = r.version + 1) := by
  refine ⟨(C2_version_invariant (DBState.mk [] 1 0) []
      (Movie.mk 0 0 "B" 2001 120 (some ["drama"]) 0) 1).1, ?_⟩
  exact (C2_version_invariant (DBState.mk [] 1 0)
      [Movie.mk 1 0 "A" 2000 100 (some ["drama"]) 1]
      (Movie.mk 1 0 "B" 2001 120 (some ["drama"]) 1) 1).2.2.1
    (Movie.mk 1 0 "B" 2001 120 (some ["drama"]) 2) (by decide)

/-- C10: a successful `Update` changes only the `Version` field of the
caller's movie — set to the value returned by the conditional write —
and leaves id, created-at, title, year, runtime and genres untouched;
on any failure (conflict or backend error) the caller's movie is not
modified at all. -/
theorem C10_update_frame (rows : List Movie) (m : Movie) :
    ((MovieModel.Update rows m).2.2 = none →
      (MovieModel.Update rows m).2.1.id = m.id ∧
      (MovieModel.Update rows m).2.1.createdAt = m.createdAt ∧
      (MovieModel.Update rows m).2.1.title = m.title ∧
      (MovieModel.Update rows m).2.1.year = m.year ∧
      (MovieModel.Update rows m).2.1.runtime = m.runtime ∧
      (MovieModel.Update rows m).2.1.genres = m.genres ∧
      ∃ v : Int, (queryUpdate rows m).2 = DBOutcome.ok v ∧
        (MovieModel.Update rows m).2.1.version = v) ∧
    ((MovieModel.Update rows m).2.2 ≠ none → (MovieModel.Update rows m).2.1 = m) ∧
    (∀ o : DBOutcome Int, (updateScan m o).2 ≠ none → (updateScan m o).1 = m) := by
  refine ⟨?_, ?_, ?_⟩
  · intro hsucc
    cases hf : rows.find? (fun r => r.id == m.id && r.version == m.version) with
    | none =>
      exfalso
      simp [MovieModel.Update, queryUpdate, hf, updateScan] at hsucc
    | some r0 =>
      simp [MovieModel.Update, queryUpdate, hf, updateScan]
  · intro hfail
    cases hf : rows.find? (fun r => r.id == m.id && r.version == m.version) with
    | none => simp [MovieModel.Update, queryUpdate, hf, updateScan]
    | some r0 =>
      exfalso
      simp [MovieModel.Update, queryUpdate, hf, updateScan] at hfail
  · intro o ho
    cases o with
    | ok v => simp [updateScan] at ho
    | err e =>
      show (if e = GoError.sqlErrNoRows then (m, some GoError.errEditConflict)
            else (m, some e)).1 = m
      split <;> rfl

/-- Witness for C10: the successful concrete update of the C1 scenario
keeps every caller field except `Version`, and a backend failure keeps
the whole movie. -/
theorem C10_update_frame_witness :
    (MovieModel.Update
        [Movie.mk 1 0 "Old" 2000 100 (some ["drama"]) 1]
        (Movie.mk 1 0 "New" 2001 120 (some ["drama"]) 1)).2.1.title = "New" ∧
    (MovieModel.Update
        [Movie.mk 1 0 "Old" 2000 100 (some ["drama"]) 1]
        (Movie.mk 1 0 "New" 2001 120 (some ["drama"]) 1)).2.1.genres = some ["drama"] ∧
    (updateScan (Movie.mk 1 0 "New" 2001 120 (some ["drama"]) 1)
        (DBOutcome.err GoError.deadlineExceeded)).1 =
      Movie.mk 1 0 "New" 2001 120 (some ["drama"]) 1 := by
  have h := C10_update_frame
    [Movie.mk 1 0 "Old" 2000 100 (some ["drama"]) 1]
    (Movie.mk 1 0 "New" 2001 120 (some ["drama"]) 1)
  have hs := h.1 (by decide)
  exact ⟨hs.2.2.1, hs.2.2.2.2.2.1,
    h.2.2 (DBOutcome.err GoError.deadlineExceeded) (by decide)⟩

/-- C5: `Get` with `id < 1` fails with `ErrRecordNotFound` before the
backend is reached (the result is the same whatever the backend would
answer); with `id ≥ 1` it fails with `ErrRecordNotFound` exactly when no
stored row carries the id, surfaces any other backend failure as-is,
and on success returns the stored row itself, whole. -/
theorem C5_get_semantics (rows : List Movie) (id : Int) :
    (id < 1 → ∀ o : DBOutcome Movie,
      getScan id o = (Except.error GoError.errRecordNotFound, false)) ∧
    (1 ≤ id →
      ((MovieModel.Get rows id).1 = Except.error GoError.errRecordNotFound ↔
        ∀ r ∈ rows, ¬(r.id = id))) ∧
    (1 ≤ id → ∀ r : Movie, (MovieModel.Get rows id).1 = Except.ok r →
      r ∈ rows ∧ r.id = id) ∧
    (1 ≤ id → ∀ e : GoError, ¬(e = GoError.sqlErrNoRows) →
      getScan id (DBOutcome.err e) = (Except.error e, true)) := by
  refine ⟨?_, ?_, ?_, ?_⟩
  · intro h o
    unfold getScan
    rw [if_pos h]
  · intro h
    have hlt : ¬(id < 1) := by omega
    cases hf : rows.find? (fun r => r.id == id) with
    | none =>
      have hall := List.find?_eq_none.mp hf
      simp only [MovieModel.Get, queryGet, hf, getScan, if_neg hlt, if_pos rfl]
      constructor
      · intro _ r hr
        simpa using hall r hr
      · intro _
        rfl
    | some r =>
      have hp := List.find?_some hf
      have hm := List.mem_of_find?_eq_some hf
      simp only [beq_iff_eq] at hp
      simp only [MovieModel.Get, queryGet, hf, getScan, if_neg hlt]
      constructor
      · intro hcontra
        cases hcontra
      · intro hall
        exact absurd hp (hall r hm)
  · intro h r hok
    have hlt : ¬(id < 1) := by omega
    cases hf : rows.find? (fun r => r.id == id) with
    | none =>
      exfalso
      simp [MovieModel.Get, queryGet, hf, getScan, hlt] at hok
    | some r0 =>
      have hp := List.find?_some hf
      have hm := List.mem_of_find?_eq_some hf
      simp only [beq_iff_eq] at hp
      simp only [MovieModel.Get, queryGet, hf, getScan, if_neg hlt,
        Except.ok.injEq] at hok
      subst hok
      exact ⟨hm, hp⟩
  · intro h e he
    unfold getScan
    rw [if_neg (by omega : ¬(id < 1))]
    simp [he]

/-- Witness for C5: on a one-row store, `Get 1` returns the stored row,
`Get 0` is not-found whatever the backend would answer, `Get 2` is
not-found exactly because no row has id 2, and a non-no-rows backend
error is surfaced as itself. -/
theorem C5_get_semantics_witness :
    (Movie.mk 1 7 "A" 2000 100 (some ["drama"]) 1 ∈
        [Movie.mk 1 7 "A" 2000 100 (some ["drama"]) 1] ∧
      (Movie.mk 1 7 "A" 2000 100 (some ["drama"]) 1).id = 1) ∧
    getScan 0 (DBOutcome.ok (Movie.mk 9 9 "Z" 1999 90 (some ["noir"]) 3)) =
      (Except.error GoError.errRecordNotFound, false) ∧
    ((MovieModel.Get [Movie.mk 1 7 "A" 2000 100 (some ["drama"]) 1] 2).1 =
        Except.error GoError.errRecordNotFound ↔
      ∀ r ∈ [Movie.mk 1 7 "A" 2000 100 (some ["drama"]) 1], ¬(r.id = 2)) ∧
    getScan 1 (DBOutcome.err (GoError.otherError 42)) =
      (Except.error (GoError.otherError 42), true) := by
  refine ⟨(C5_get_semantics [Movie.mk 1 7 "A" 2000 100 (some ["drama"]) 1] 1).2.2.1
      (by decide) (Movie.mk 1 7 "A" 2000 100 (some ["drama"]) 1) rfl,
    (C5_get_semantics [] 0).1 (by decide)
      (DBOutcome.ok (Movie.mk 9 9 "Z" 1999 90 (some ["noir"]) 3)),
    (C5_get_semantics [Movie.mk 1 7 "A" 2000 100 (some ["drama"]) 1] 2).2.1
      (by decide),
    (C5_get_semantics [] 1).2.2.2 (by decide) (GoError.otherError 42) (by decide)⟩

/-- `Delete` answers `ErrRecordNotFound` whenever no stored row carries
the id (and the id passed the guard). -/
theorem delete_notFound_of_no_match (rows : List Movie) (id : Int)
    (h1 : ¬(id < 1)) (h : ∀ r ∈ rows, ¬(r.id = id)) :
    MovieModel.Delete rows id = (rows, some GoError.errRecordNotFound) := by
  have h0 : (queryDelete rows id).2 = 0 := by
    simp only [queryDelete]
    rw [List.countP_eq_zero]
    intro r hr
    simpa using h r hr
  have h1rows : (queryDelete rows id).1 = rows := by
    simp only [queryDelete]
    rw [List.filter_eq_self]
    intro r hr
    simpa using h r hr
  unfold MovieModel.Delete
  rw [if_neg h1]
  unfold deleteScan
  rw [if_neg h1, h1rows, h0]
  rfl

/-- C6: `Delete` with `id < 1` fails with `ErrRecordNotFound` before the
backend is reached; with `id ≥ 1` it removes the rows with that id and
fails with `ErrRecordNotFound` exactly when the affected-row count is
zero, i.e. exactly when no stored row carried the id; deleting and then
deleting the same id again yields `ErrRecordNotFound` the second time. -/
theorem C6_delete_semantics (rows : List Movie) (id : Int) :
    (id < 1 → ∀ o : Except GoError Nat,
      deleteScan id o = (some GoError.errRecordNotFound, false)) ∧
    (id < 1 → MovieModel.Delete rows id = (rows, some GoError.errRecordNotFound)) ∧
    (1 ≤ id →
      ((MovieModel.Delete rows id).2 = some GoError.errRecordNotFound ↔
        (queryDelete rows id).2 = 0)) ∧
    ((queryDelete rows id).2 = 0 ↔ ∀ r ∈ rows, ¬(r.id = id)) ∧
    ((MovieModel.Delete rows id).2 = none →
      (MovieModel.Delete (MovieModel.Delete rows id).1 id).2 =
        some GoError.errRecordNotFound) := by
  refine ⟨?_, ?_, ?_, ?_, ?_⟩
  · intro h o
    unfold deleteScan
    rw [if_pos h]
  · intro h
    unfold MovieModel.Delete
    rw [if_pos h]
  · intro h
    have hlt : ¬(id < 1) := by omega
    unfold MovieModel.Delete deleteScan
    rw [if_neg hlt, if_neg hlt]
    by_cases h0 : (queryDelete rows id).2 = 0
    · simp [h0]
    · simp [h0]
  · simp only [queryDelete]
    rw [List.countP_eq_zero]
    simp
  · intro hsucc
    have hlt : ¬(id < 1) := by
      intro h
      unfold MovieModel.Delete at hsucc
      rw [if_pos h] at hsucc
      simp at hsucc
    have hrows : (MovieModel.Delete rows id).1 =
        rows.filter (fun r => !(r.id == id)) := by
      unfold MovieModel.Delete
      rw [if_neg hlt]
      simp [queryDelete]
    have hnm : ∀ r ∈ rows.filter (fun r => !(r.id == id)), ¬(r.id = id) := by
      intro r hr
      have := (List.mem_filter.mp hr).2
      simpa using this
    rw [hrows, delete_notFound_of_no_match _ id hlt hnm]

/-- Witness for C6: deleting the only row succeeds, deleting the same id
again answers `ErrRecordNotFound`; `Delete 0` answers `ErrRecordNotFound`
with the store untouched and no backend call. -/
theorem C6_delete_semantics_witness :
    (MovieModel.Delete
      (MovieModel.Delete [Movie.mk 1 0 "A" 2000 100 (some ["drama"]) 1] 1).1 1).2 =
      some GoError.errRecordNotFound ∧
    MovieModel.Delete [Movie.mk 1 0 "A" 2000 100 (some ["drama"]) 1] 0 =
      ([Movie.mk 1 0 "A" 2000 100 (some ["drama"]) 1],
        some GoError.errRecordNotFound) ∧
    deleteScan 0 (Except.ok 1) = (some GoError.errRecordNotFound, false) := by
  refine ⟨(C6_delete_semantics [Movie.mk 1 0 "A" 2000 100 (some ["drama"]) 1] 1).2.2.2.2
      (by decide), ?_, ?_⟩
  · exact (C6_delete_semantics [Movie.mk 1 0 "A" 2000 100 (some ["drama"]) 1] 0).2.1
      (by decide)
  · exact (C6_delete_semantics [] 0).1 (by decide) (Except.ok 1)

/-- C9: each of the five store operations carries the same bounded
3-second per-call deadline, and a deadline expiry propagates through
every operation's error handling as itself — a generic storage failure,
never `ErrRecordNotFound` and never `ErrEditConflict`. -/
theorem C9_timeouts :
    (insertTimeoutSeconds = 3 ∧ getTimeoutSeconds = 3 ∧
      updateTimeoutSeconds = 3 ∧ deleteTimeoutSeconds = 3 ∧
      getAllTimeoutSeconds = 3) ∧
    (∀ m : Movie, insertScan m (DBOutcome.err GoError.deadlineExceeded) =
      (m, some GoError.deadlineExceeded)) ∧
    (∀ id : Int, 1 ≤ id →
      getScan id (DBOutcome.err GoError.deadlineExceeded) =
        (Except.error GoError.deadlineExceeded, true)) ∧
    (∀ m : Movie, updateScan m (DBOutcome.err GoError.deadlineExceeded) =
      (m, some GoError.deadlineExceeded)) ∧
    (∀ id : Int, 1 ≤ id →
      deleteScan id (Except.error GoError.deadlineExceeded) =
        (some GoError.deadlineExceeded, true)) ∧
    getAllScan (Except.error GoError.deadlineExceeded) =
      Except.error GoError.deadlineExceeded ∧
    ¬(GoError.deadlineExceeded = GoError.errRecordNotFound) ∧
    ¬(GoError.deadlineExceeded = GoError.errEditConflict) := by
  refine ⟨⟨rfl, rfl, rfl, rfl, rfl⟩, ?_, ?_, ?_, ?_, rfl, by decide, by decide⟩
  · intro m
    rfl
  · intro id h
    unfold getScan
    rw [if_neg (by omega : ¬(id < 1))]
    simp
  · intro m
    simp [updateScan]
  · intro id h
    unfold deleteScan
    rw [if_neg (by omega : ¬(id < 1))]

/-- Witness for C9: the deadline error passes through `Get` and `Delete`
at id 1 unchanged. -/
theorem C9_timeouts_witness :
    getScan 1 (DBOutcome.err GoError.deadlineExceeded) =
      (Except.error GoError.deadlineExceeded, true) ∧
    deleteScan 1 (Except.error GoError.deadlineExceeded) =
      (some GoError.deadlineExceeded, true) := by
  exact ⟨C9_timeouts.2.2.1 1 (by decide), C9_timeouts.2.2.2.2.1 1 (by decide)⟩

/-- C4: the column name used in the ORDER BY text is never the raw
client sort string: the sort value is first resolved against the fixed
safelist, a value outside the safelist resolves to nothing — so no query
text is built from it — and whenever query text exists its column is the
safelisted value with the descending marker stripped. -/
theorem C4_sort_safelist (f : Filters) :
    (f.sortSafelist.contains f.sort = false →
      f.sortColumn = none ∧ buildOrderByClause f = none) ∧
    (∀ col : String, f.sortColumn = some col →
      f.sortSafelist.contains f.sort = true ∧ col = stripLeadingDash f.sort) ∧
    (∀ q : String, buildOrderByClause f = some q →
      f.sortSafelist.contains f.sort = true ∧
      q = "ORDER BY " ++ stripLeadingDash f.sort ++ " " ++ f.sortDirection
          ++ ", id ASC") := by
  have hsome : ∀ col : String, f.sortColumn = some col →
      f.sortSafelist.contains f.sort = true ∧ col = stripLeadingDash f.sort := by
    intro col h
    unfold Filters.sortColumn at h
    split at h
    · rename_i hc
      exact ⟨hc, (Option.some_inj.mp h).symm⟩
    · cases h
  refine ⟨?_, hsome, ?_⟩
  · intro h
    have h1 : f.sortColumn = none := by
      unfold Filters.sortColumn
      rw [h]
      simp
    exact ⟨h1, by unfold buildOrderByClause; rw [h1]⟩
  · intro q h
    unfold buildOrderByClause at h
    cases hc : f.sortColumn with
    | none => rw [hc] at h; cases h
    | some col =>
      rw [hc] at h
      rcases hsome col hc with ⟨hsl, hcol⟩
      refine ⟨hsl, ?_⟩
      rw [← Option.some_inj.mp h, hcol]

/-- Witness for C4: an injection-shaped sort value outside the safelist
builds no query text; the safelisted value `-year` resolves to the fixed
column name `year`. -/
theorem C4_sort_safelist_witness :
    ((Filters.mk 1 20 "title; DROP TABLE movies" ["id", "year"]).sortColumn = none ∧
      buildOrderByClause (Filters.mk 1 20 "title; DROP TABLE movies" ["id", "year"]) =
        none) ∧
    ((Filters.mk 1 20 "-year" ["id", "year", "-id", "-year"]).sortSafelist.contains
        (Filters.mk 1 20 "-year" ["id", "year", "-id", "-year"]).sort = true ∧
      "year" = stripLeadingDash (Filters.mk 1 20 "-year" ["id", "year", "-id", "-year"]).sort) := by
  refine ⟨(C4_sort_safelist
      (Filters.mk 1 20 "title; DROP TABLE movies" ["id", "year"])).1 (by decide), ?_⟩
  exact (C4_sort_safelist
      (Filters.mk 1 20 "-year" ["id", "year", "-id", "-year"])).2.1 "year" (by decide)

/-- Counterexample to C3: with `page_size` 2 and three stored rows all
matching the empty filters, `GetAll` returns all three records — more
than a page — because the query it builds carries no LIMIT or OFFSET
and computes no total count. -/
theorem C3_counterexample :
    (Filters.mk 1 2 "id" ["id"]).pageSize <
      (((MovieModel.GetAll
          [Movie.mk 1 0 "A" 2000 100 (some ["drama"]) 1,
           Movie.mk 2 0 "B" 2001 110 (some ["drama"]) 1,
           Movie.mk 3 0 "C" 2002 120 (some ["drama"]) 1]
          "" [] (Filters.mk 1 2 "id" ["id"])).getD []).length : Int) := by
  decide

/-- C3 (amended): whenever the sort value resolves, `GetAll` returns the
entire matching set — a permutation of all stored rows passing the title
and genre predicates, with length equal to the total match count.  No
page bound or offset is derived from page/page_size, and no total count
is returned alongside the records. -/
theorem C3_getall_returns_all_matches (rows : List Movie) (title : String)
    (genres : List String) (f : Filters) (l : List Movie)
    (h : MovieModel.GetAll rows title genres f = some l) :
    l.Perm (rows.filter (rowMatches title genres)) ∧
    l.length = (rows.filter (rowMatches title genres)).length := by
  unfold MovieModel.GetAll at h
  cases hc : f.sortColumn with
  | none => rw [hc] at h; cases h
  | some col =>
    rw [hc] at h
    have h2 := Option.some_inj.mp h
    subst h2
    exact ⟨perm_orderBy _ _, (perm_orderBy _ _).length_eq⟩

/-- Witness for C3's amended statement at a concrete one-row store. -/
theorem C3_getall_returns_all_matches_witness :
    ([Movie.mk 1 0 "A" 2000 100 (some ["drama"]) 1]).Perm
      ([Movie.mk 1 0 "A" 2000 100 (some ["drama"]) 1].filter (rowMatches "" [])) ∧
    ([Movie.mk 1 0 "A" 2000 100 (some ["drama"]) 1]).length =
      ([Movie.mk 1 0 "A" 2000 100 (some ["drama"]) 1].filter
        (rowMatches "" [])).length :=
  C3_getall_returns_all_matches
    [Movie.mk 1 0 "A" 2000 100 (some ["drama"]) 1] "" []
    (Filters.mk 1 2 "id" ["id"])
    [Movie.mk 1 0 "A" 2000 100 (some ["drama"]) 1] (by decide)

/-- C7: the `WHERE` clause of the List query matches titles by token
search — an empty phrase matches every row, a non-empty phrase matches
exactly when every one of its significant tokens occurs among the
title's tokens, which is neither implied by nor implies substring
matching — matches genres by containment with an empty requested set
matching everything, and the `ORDER BY` always breaks ties on the sort
key by ascending id, the returned rows being sorted under the resolved
column's ordering. -/
theorem C7_list_matching_and_order :
    (∀ title : String, titleMatches "" title = true) ∧
    (∀ phrase title : String,
      (titleMatches phrase title = true ↔
        (∀ t ∈ tokenize phrase, t ∈ tokenize title) ∨ phrase = "")) ∧
    (titleMatches "club fight" "Fight Club" = true ∧
      containsSeq "Fight Club".data "club fight".data = false) ∧
    (titleMatches "ight Clu" "Fight Club" = false ∧
      containsSeq "Fight Club".data "ight Clu".data = true) ∧
    (∀ req stored : List String,
      (genreMatches req stored = true ↔ ∀ g ∈ req, g ∈ stored)) ∧
    (∀ stored : List String, genreMatches [] stored = true) ∧
    (∀ col : String, ∀ desc : Bool, ∀ a b : Movie, sameKey col a b = true →
      (listOrder col desc a b = true ↔ a.id ≤ b.id)) ∧
    (∀ rows : List Movie, ∀ title : String, ∀ genres : List String,
      ∀ f : Filters, ∀ col : String, ∀ l : List Movie,
      f.sortColumn = some col →
      MovieModel.GetAll rows title genres f = some l →
      l.Pairwise (fun a b =>
        listOrder col (f.sortDirection == "DESC") a b = true)) := by
  refine ⟨?_, ?_, ⟨by decide, by decide⟩, ⟨by decide, by decide⟩, ?_, ?_, ?_, ?_⟩
  · intro title
    rfl
  · intro phrase title
    unfold titleMatches
    simp [List.all_eq_true]
  · intro req stored
    unfold genreMatches
    cases req with
    | nil => simp
    | cons g gs => simp [List.all_eq_true]
  · intro stored
    rfl
  · exact listOrder_tie
  · intro rows title genres f col l hc h
    unfold MovieModel.GetAll at h
    rw [hc] at h
    have h2 := Option.some_inj.mp h
    subst h2
    exact pairwise_orderBy _ (fun a b => listOrder_total col _ a b)
      (fun a b c => listOrder_trans col _ a b c) _

/-- Witness for C7: the spec's example — rows (id 1, "A", year 2000) and
(id 2, "B", year 1999) listed with sort `year` come back in order
[2, 1], sorted; and two rows tying on year are ordered by ascending
id. -/
theorem C7_list_matching_and_order_witness :
    MovieModel.GetAll
        [Movie.mk 1 0 "A" 2000 100 (some ["drama"]) 1,
         Movie.mk 2 0 "B" 1999 100 (some ["drama"]) 1]
        "" [] (Filters.mk 1 20 "year" ["id", "year"]) =
      some [Movie.mk 2 0 "B" 1999 100 (some ["drama"]) 1,
            Movie.mk 1 0 "A" 2000 100 (some ["drama"]) 1] ∧
    List.Pairwise (fun a b =>
        listOrder "year"
          ((Filters.mk 1 20 "year" ["id", "year"]).sortDirection == "DESC")
          a b = true)
      [Movie.mk 2 0 "B" 1999 100 (some ["drama"]) 1,
       Movie.mk 1 0 "A" 2000 100 (some ["drama"]) 1] ∧
    (listOrder "year" false (Movie.mk 1 0 "A" 2000 100 (some ["drama"]) 1)
        (Movie.mk 2 0 "C" 2000 90 (some ["noir"]) 1) = true ↔
      (Movie.mk 1 0 "A" 2000 100 (some ["drama"]) 1).id ≤
        (Movie.mk 2 0 "C" 2000 90 (some ["noir"]) 1).id) := by
  refine ⟨by decide, ?_, ?_⟩
  · exact C7_list_matching_and_order.2.2.2.2.2.2.2
      [Movie.mk 1 0 "A" 2000 100 (some ["drama"]) 1,
       Movie.mk 2 0 "B" 1999 100 (some ["drama"]) 1]
      "" [] (Filters.mk 1 20 "year" ["id", "year"]) "year"
      [Movie.mk 2 0 "B" 1999 100 (some ["drama"]) 1,
       Movie.mk 1 0 "A" 2000 100 (some ["drama"]) 1]
      (by decide) (by decide)
  · exact C7_list_matching_and_order.2.2.2.2.2.2.1 "year" false
      (Movie.mk 1 0 "A" 2000 100 (some ["drama"]) 1)
      (Movie.mk 2 0 "C" 2000 90 (some ["noir"]) 1) (by decide)

/-- C8: `ValidateMovie` records failures without short-circuiting: the
validator ends clean exactly when every rule holds — title non-empty and
at most 500 bytes, year non-zero and within [1888, current year],
runtime non-zero and positive, genres non-nil with between 1 and 5
pairwise-distinct entries; each field carries at most one message; and
each violated rule leaves its field reported, independently of the other
fields' failures, so several offending fields are reported
simultaneously. -/
theorem C8_validate_movie (currentYear : Int) (m : Movie) :
    ((ValidateMovie currentYear (Validator.mk []) m).valid = true ↔
      (¬(m.title = "") ∧ m.title.utf8ByteSize ≤ 500 ∧
       ¬(m.year = 0) ∧ 1888 ≤ m.year ∧ m.year ≤ currentYear ∧
       ¬(m.runtime = 0) ∧ 0 < m.runtime ∧
       m.genres.isSome = true ∧ 1 ≤ (genresList m).length ∧
       (genresList m).length ≤ 5 ∧ uniqueStrings (genresList m) = true)) ∧
    (∀ key : String,
      countKey key (ValidateMovie currentYear (Validator.mk []) m).errors ≤ 1) ∧
    (m.title = "" →
      (ValidateMovie currentYear (Validator.mk []) m).hasKey "title" = true) ∧
    (¬(m.year ≤ currentYear) →
      (ValidateMovie currentYear (Validator.mk []) m).hasKey "year" = true) ∧
    (¬(0 < m.runtime) →
      (ValidateMovie currentYear (Validator.mk []) m).hasKey "runtime" = true) ∧
    (¬((genresList m).length ≤ 5) →
      (ValidateMovie currentYear (Validator.mk []) m).hasKey "genres" = true) ∧
    (¬(uniqueStrings (genresList m) = true) →
      (ValidateMovie currentYear (Validator.mk []) m).hasKey "genres" = true) := by
  refine ⟨?_, ?_, ?_, ?_, ?_, ?_, ?_⟩
  · unfold ValidateMovie Validator.valid
    rw [List.isEmpty_iff, runChecks_errors_nil_iff]
    simp only [movieChecks, List.mem_cons, List.not_mem_nil, or_false,
      forall_eq_or_imp, forall_eq, bne_iff_ne, ne_eq, decide_eq_true_eq,
      true_and]
  · intro key
    exact countKey_runChecks_le_one _ _ key (by simp [countKey])
  · intro h
    apply runChecks_hasKey_of_failed _ _ "title" "must be provided"
    have hc : (m.title != "") = false := by simp [h]
    unfold movieChecks
    rw [hc]
    exact List.mem_cons_self _ _
  · intro h
    apply runChecks_hasKey_of_failed _ _ "year" "must not be in the future"
    have hc : decide (m.year ≤ currentYear) = false := decide_eq_false h
    unfold movieChecks
    rw [hc]
    exact List.mem_cons_of_mem _ (List.mem_cons_of_mem _ (List.mem_cons_of_mem _
      (List.mem_cons_of_mem _ (List.mem_cons_self _ _))))
  · intro h
    apply runChecks_hasKey_of_failed _ _ "runtime" "must be a positive integers"
    have hc : decide (0 < m.runtime) = false := decide_eq_false h
    unfold movieChecks
    rw [hc]
    exact List.mem_cons_of_mem _ (List.mem_cons_of_mem _ (List.mem_cons_of_mem _
      (List.mem_cons_of_mem _ (List.mem_cons_of_mem _ (List.mem_cons_of_mem _
        (List.mem_cons_self _ _))))))
  · intro h
    apply runChecks_hasKey_of_failed _ _ "genres" "must not contain more than 5 genres"
    have hc : decide ((genresList m).length ≤ 5) = false := decide_eq_false h
    unfold movieChecks
    rw [hc]
    exact List.mem_cons_of_mem _ (List.mem_cons_of_mem _ (List.mem_cons_of_mem _
      (List.mem_cons_of_mem _ (List.mem_cons_of_mem _ (List.mem_cons_of_mem _
        (List.mem_cons_of_mem _ (List.mem_cons_of_mem _ (List.mem_cons_of_mem _
          (List.mem_cons_self _ _)))))))))
  · intro h
    apply runChecks_hasKey_of_failed _ _ "genres" "must not contain duplicate values"
    have hc : uniqueStrings (genresList m) = false := by
      cases hu : uniqueStrings (genresList m) with
      | false => rfl
      | true => exact absurd hu h
    unfold movieChecks
    rw [hc]
    exact List.mem_cons_of_mem _ (List.mem_cons_of_mem _ (List.mem_cons_of_mem _
      (List.mem_cons_of_mem _ (List.mem_cons_of_mem _ (List.mem_cons_of_mem _
        (List.mem_cons_of_mem _ (List.mem_cons_of_mem _ (List.mem_cons_of_mem _
          (List.mem_cons_of_mem _ (List.mem_cons_self _ _))))))))))

/-- Witness for C8: a movie with six genres containing a duplicate and a
year two years past the current year fails with exactly one message for
`year` and one for `genres`, both present at once. -/
theorem C8_validate_movie_witness :
    (ValidateMovie 2025 (Validator.mk [])
        (Movie.mk 0 0 "T" 2027 100
          (some ["a", "b", "c", "d", "e", "a"]) 0)).hasKey "year" = true ∧
    (ValidateMovie 2025 (Validator.mk [])
        (Movie.mk 0 0 "T" 2027 100
          (some ["a", "b", "c", "d", "e", "a"]) 0)).hasKey "genres" = true ∧
    countKey "year" (ValidateMovie 2025 (Validator.mk [])
        (Movie.mk 0 0 "T" 2027 100
          (some ["a", "b", "c", "d", "e", "a"]) 0)).errors ≤ 1 ∧
    countKey "genres" (ValidateMovie 2025 (Validator.mk [])
        (Movie.mk 0 0 "T" 2027 100
          (some ["a", "b", "c", "d", "e", "a"]) 0)).errors ≤ 1 ∧
    (ValidateMovie 2025 (Validator.mk [])
        (Movie.mk 0 0 "T" 2027 100
          (some ["a", "b", "c", "d", "e", "a"]) 0)).errors =
      [("year", "must not be in the future"),
       ("genres", "must not contain more than 5 genres")] := by
  have h := C8_validate_movie 2025
    (Movie.mk 0 0 "T" 2027 100 (some ["a", "b", "c", "d", "e", "a"]) 0)
  exact ⟨h.2.2.2.1 (by decide), h.2.2.2.2.2.1 (by decide),
    h.2.1 "year", h.2.1 "genres", by decide⟩
